import Mathlib

/-!
Verification of the synthetic transaction data generator with fraud-scenario
injection (`src/03_memory_profiler/SimulatedDataset.py`).

The Python code is embedded shallowly:
* DataFrame rows become Lean structures, tables become lists (row order = index
  order; after `generate_dataset` the dataframe index is the dense row
  position, so list positions stand for the pandas index).
* Monetary amounts, coordinates and distribution parameters are rationals
  (`ℚ`); the Python floats only ever feed comparisons and ring operations
  here, so `ℚ` is an exact stand-in.
* The pseudo-random draws (`np.random.*`, `random.*`, pandas `.sample`) are
  abstracted as oracle families: a draw is a pure function of the seed, the
  number of draws consumed since the last (re-)seeding, and the
  distribution parameters.  This models exactly the reproducibility contract
  of seeded generators: re-seeding with the same seed replays the same
  sequence.  Distributional facts (e.g. a uniform draw lies in its interval)
  are stated as explicit contract hypotheses where a claim needs them.
-/

/-- Oracle for the `np.random` global stream: each draw is determined by the
seed (argument of the last `np.random.seed`), the count of draws consumed
since that seeding, and the distribution parameters. -/
structure NpOracle where
  uniform : ℕ → ℕ → ℚ → ℚ → ℚ
  normal : ℕ → ℕ → ℚ → ℚ → ℚ
  poisson : ℕ → ℕ → ℚ → ℕ

/-- Oracle for the Python `random` global stream (`random.choice`), determined
by seed, draw counter and the list argument. -/
structure PyOracle where
  choice : ℕ → ℕ → List ℕ → ℕ

/-- Oracles for the randomness used by `add_frauds`: pandas
`Series.sample(n=k, random_state=s)` (a function of seed, population and
draw size) and `random.sample(pop, k)` right after `random.seed(s)`
(a function of seed, population and draw size). -/
structure FraudOracle where
  pdSample : ℕ → List ℕ → ℕ → List ℕ
  pySample : ℕ → List ℕ → ℕ → List ℕ

/-- One row of the customer profiles table.  `available_terminals` is the
column added by the proximity-association step of `generate_dataset`;
`generate_customer_profiles_table` itself leaves it empty. -/
structure CustomerProfile where
  CUSTOMER_ID : ℕ
  x_customer_id : ℚ
  y_customer_id : ℚ
  mean_amount : ℚ
  std_amount : ℚ
  mean_nb_tx_per_day : ℚ
  available_terminals : List ℕ
deriving DecidableEq

/-- One row of the terminal profiles table. -/
structure TerminalProfile where
  TERMINAL_ID : ℕ
  x_terminal_id : ℚ
  y_terminal_id : ℚ
deriving DecidableEq

/-- One row of the transactions table.  `TX_DATETIMEs` is `TX_DATETIME`
as seconds since the Unix epoch (pandas `to_datetime(seconds,
origin=start_date)` is the start date's epoch offset plus
`TX_TIME_SECONDS`), and `TX_FRAUD_SCEN` is the source's scenario-tag column
(0 = legitimate, otherwise the number of the scenario that last marked the
row).  The fraud columns are created by `add_frauds`; the generator rows
carry them as 0. -/
structure Transaction where
  TX_DATETIMEs : ℤ
  CUSTOMER_ID : ℕ
  TERMINAL_ID : ℕ
  TX_AMOUNT : ℚ
  TX_TIME_SECONDS : ℤ
  TX_TIME_DAYS : ℕ
  TX_FRAUD : ℕ
  TX_FRAUD_SCEN : ℕ
deriving DecidableEq

/-- `generate_customer_profiles_table`: after `np.random.seed(random_state)`,
each customer consumes four consecutive uniform draws from the single shared
stream (x, y, mean amount, mean daily transaction count);
`std_amount` is derived as `mean_amount / 2`.  A non-positive count gives an
empty `range`, hence an empty table. -/
def generate_customer_profiles_table (o : NpOracle) (n_customers : ℤ)
    (random_state : ℕ) : List CustomerProfile :=
  (List.range n_customers.toNat).map fun customer_id =>
    { CUSTOMER_ID := customer_id
      x_customer_id := o.uniform random_state (4 * customer_id) 0 100
      y_customer_id := o.uniform random_state (4 * customer_id + 1) 0 100
      mean_amount := o.uniform random_state (4 * customer_id + 2) 5 100
      std_amount := o.uniform random_state (4 * customer_id + 2) 5 100 / 2
      mean_nb_tx_per_day := o.uniform random_state (4 * customer_id + 3) 0 4
      available_terminals := [] }

/-- `generate_terminal_profiles_table`: two uniform draws (x, y) per
terminal from the stream seeded by `random_state`. -/
def generate_terminal_profiles_table (o : NpOracle) (n_terminals : ℤ)
    (random_state : ℕ) : List TerminalProfile :=
  (List.range n_terminals.toNat).map fun terminal_id =>
    { TERMINAL_ID := terminal_id
      x_terminal_id := o.uniform random_state (2 * terminal_id) 0 100
      y_terminal_id := o.uniform random_state (2 * terminal_id + 1) 0 100 }

/-- Squared Euclidean distance between two planar points. -/
def sqDist (x1 y1 x2 y2 : ℚ) : ℚ := (x1 - x2) ^ 2 + (y1 - y2) ^ 2

/-- Index-collecting core of `np.where(dist_x_y < r)`.  The source compares
`np.sqrt(squared_diff_sum) < r`; since the square root is non-negative, that
comparison holds exactly when `0 ≤ r` and the squared distance is below
`r * r`, which is the square-root-free form used here. -/
def withinRadiusIdx (cx cy r : ℚ) : ℕ → List (ℚ × ℚ) → List ℕ
  | _, [] => []
  | i, t :: ts =>
    if 0 ≤ r ∧ sqDist cx cy t.1 t.2 < r * r then
      i :: withinRadiusIdx cx cy r (i + 1) ts
    else
      withinRadiusIdx cx cy r (i + 1) ts

/-- `get_list_terminals_within_radius`: the indices (= dense terminal
identifiers) of the terminals whose Euclidean distance to the customer's
position is strictly less than `r`. -/
def get_list_terminals_within_radius (customer_profile : CustomerProfile)
    (x_y_terminals : List (ℚ × ℚ)) (r : ℚ) : List ℕ :=
  withinRadiusIdx customer_profile.x_customer_id customer_profile.y_customer_id
    r 0 x_y_terminals

/-- Python `int()` applied to a real draw: truncation toward zero. -/
def truncToInt (q : ℚ) : ℤ := if q < 0 then ⌈q⌉ else ⌊q⌋

/-- `np.round(amount, decimals=2)`: rounding to a multiple of 1/100.  (The
tie-breaking convention at exact half-cent ties differs from numpy's
round-half-to-even; no claim depends on tie direction.) -/
def round2 (q : ℚ) : ℚ := ((round (q * 100) : ℤ) : ℚ) / 100

/-- Inner loop of `generate_transactions_table` (`for tx in range(nb_tx)`).
Arguments after `day`: remaining iteration count, `np.random` draw counter,
`random` draw counter.  Returns the appended transactions in order together
with the two final counters.  Mirrors the source: the time draw is kept only
when `0 < int(draw) < 86400` (a discarded draw skips the iteration, it is
not retried); the amount draw happens only for a kept time and is redrawn
uniformly on `[0, 2*mean_amount]` when negative; the terminal check
`len(available_terminals) > 0` comes after the amount draw, and only then is
a row appended. -/
def genInner (o : NpOracle) (p : PyOracle) (prof : CustomerProfile)
    (startEpoch : ℤ) (day : ℕ) : ℕ → ℕ → ℕ → List Transaction × ℕ × ℕ
  | 0, npc, pyc => ([], npc, pyc)
  | k + 1, npc, pyc =>
    let cid := prof.CUSTOMER_ID
    let time_tx : ℤ := truncToInt (o.normal cid npc 43200 20000)
    if 0 < time_tx ∧ time_tx < 86400 then
      let amount0 := o.normal cid (npc + 1) prof.mean_amount prof.std_amount
      let drawn : ℚ × ℕ :=
        if amount0 < 0 then (o.uniform cid (npc + 2) 0 (prof.mean_amount * 2), npc + 3)
        else (amount0, npc + 2)
      let amount := round2 drawn.1
      if prof.available_terminals ≠ [] then
        let terminal_id := p.choice cid pyc prof.available_terminals
        let tx : Transaction :=
          { TX_DATETIMEs := startEpoch + (time_tx + (day : ℤ) * 86400)
            CUSTOMER_ID := cid
            TERMINAL_ID := terminal_id
            TX_AMOUNT := amount
            TX_TIME_SECONDS := time_tx + (day : ℤ) * 86400
            TX_TIME_DAYS := day
            TX_FRAUD := 0
            TX_FRAUD_SCEN := 0 }
        let rest := genInner o p prof startEpoch day k drawn.2 (pyc + 1)
        (tx :: rest.1, rest.2)
      else
        genInner o p prof startEpoch day k drawn.2 pyc
    else
      genInner o p prof startEpoch day k (npc + 1) pyc

/-- Outer loop of `generate_transactions_table` (`for day in range(nb_days)`):
current day, remaining days, and the two draw counters.  The Poisson draw for
the day's transaction count is consumed even when it is zero (`if nb_tx>0`
only guards an empty inner loop). -/
def genOuter (o : NpOracle) (p : PyOracle) (prof : CustomerProfile)
    (startEpoch : ℤ) : ℕ → ℕ → ℕ → ℕ → List Transaction
  | _, 0, _, _ => []
  | day, rem + 1, npc, pyc =>
    let nb_tx := o.poisson prof.CUSTOMER_ID npc prof.mean_nb_tx_per_day
    let r := genInner o p prof startEpoch day nb_tx (npc + 1) pyc
    r.1 ++ genOuter o p prof startEpoch (day + 1) rem r.2.1 r.2.2

/-- `generate_transactions_table`: `random.seed(CUSTOMER_ID)` and
`np.random.seed(CUSTOMER_ID)` replace whatever global stream state was live,
so both streams start at the customer's identifier with counter 0.
`startEpoch` is the epoch offset of `start_date`; a non-positive `nb_days`
gives an empty `range`, hence an empty table. -/
def generate_transactions_table (o : NpOracle) (p : PyOracle)
    (customer_profile : CustomerProfile) (startEpoch : ℤ) (nb_days : ℤ) :
    List Transaction :=
  genOuter o p customer_profile startEpoch 0 nb_days.toNat 0 0

/-- `generate_dataset`: customer profiles (seed 0), terminal profiles
(seed 1), proximity association with radius `r`, per-customer transaction
generation (customers are already in `CUSTOMER_ID` order, so the pandas
`groupby('CUSTOMER_ID').apply` is a concatenation in list order),
chronological sort, and dense re-indexing (`TRANSACTION_ID` = row position,
left implicit).  The two trailing arguments are the states of the global
`np.random` and `random` streams on entry — every stage re-seeds, so the
body never consults them. -/
def generate_dataset (o : NpOracle) (p : PyOracle)
    (n_customers n_terminals nb_days : ℤ) (startEpoch : ℤ) (r : ℚ)
    (npState0 pyState0 : ℕ × ℕ) :
    List CustomerProfile × List TerminalProfile × List Transaction :=
  let customer_profiles_table := generate_customer_profiles_table o n_customers 0
  let terminal_profiles_table := generate_terminal_profiles_table o n_terminals 1
  let x_y_terminals := terminal_profiles_table.map fun t =>
    (t.x_terminal_id, t.y_terminal_id)
  let customers := customer_profiles_table.map fun c =>
    { c with available_terminals := get_list_terminals_within_radius c x_y_terminals r }
  let transactions :=
    (customers.map fun c =>
      generate_transactions_table o p c startEpoch nb_days).flatten
  let sorted := transactions.mergeSort fun a b =>
    decide (a.TX_DATETIMEs ≤ b.TX_DATETIMEs)
  (customers, terminal_profiles_table, sorted)

/-- Reset of the fraud columns at the top of `add_frauds`
(`TX_FRAUD = 0`, `TX_FRAUD_SCEN = 0`). -/
def initFraud (t : Transaction) : Transaction :=
  { t with TX_FRAUD := 0, TX_FRAUD_SCEN := 0 }

/-- Scenario-1 marking of one row: amount strictly above 220 sets
`TX_FRAUD = 1` and `TX_FRAUD_SCEN = 1`. -/
def scenario1Mark (t : Transaction) : Transaction :=
  if 220 < t.TX_AMOUNT then { t with TX_FRAUD := 1, TX_FRAUD_SCEN := 1 } else t

/-- Scenario-1 pass of `add_frauds` (single stateless sweep). -/
def scenario1 (txs : List Transaction) : List Transaction :=
  txs.map scenario1Mark

/-- `transactions_df.TX_TIME_DAYS.max()` (0 on an empty table). -/
def maxDays (txs : List Transaction) : ℕ :=
  txs.foldr (fun t m => max t.TX_TIME_DAYS m) 0

/-- The two terminals drawn for day `day` in scenario 2:
`terminal_profiles_table.TERMINAL_ID.sample(n=2, random_state=day)`. -/
def compTerminals (terminals : List TerminalProfile) (p : FraudOracle)
    (day : ℕ) : List ℕ :=
  p.pdSample day (terminals.map TerminalProfile.TERMINAL_ID) 2

/-- Scenario-2 selection predicate for day `day`: the row's day index lies in
`[day, day+28)` and its terminal is among the two drawn for `day`. -/
def cond2 (terminals : List TerminalProfile) (p : FraudOracle) (day : ℕ)
    (t : Transaction) : Prop :=
  day ≤ t.TX_TIME_DAYS ∧ t.TX_TIME_DAYS < day + 28 ∧
    t.TERMINAL_ID ∈ compTerminals terminals p day

instance (terminals : List TerminalProfile) (p : FraudOracle) (day : ℕ)
    (t : Transaction) : Decidable (cond2 terminals p day t) := by
  unfold cond2; exact inferInstance

/-- Scenario-2 marking of one row. -/
def scenario2Mark (t : Transaction) : Transaction :=
  { t with TX_FRAUD := 1, TX_FRAUD_SCEN := 2 }

/-- Body of the scenario-2 day loop: mark every row selected for `day`. -/
def scenario2Step (terminals : List TerminalProfile) (p : FraudOracle)
    (day : ℕ) (txs : List Transaction) : List Transaction :=
  txs.map fun t => if cond2 terminals p day t then scenario2Mark t else t

/-- `for day in range(n)` over a state-transforming body, entered at day `d`
with `n` iterations remaining. -/
def loopDays (step : ℕ → List Transaction → List Transaction) :
    ℕ → ℕ → List Transaction → List Transaction
  | _, 0, txs => txs
  | d, n + 1, txs => loopDays step (d + 1) n (step d txs)

/-- The whole scenario-2 pass:
`for day in range(transactions_df.TX_TIME_DAYS.max())`. -/
def scenario2Pass (terminals : List TerminalProfile) (p : FraudOracle)
    (txs : List Transaction) : List Transaction :=
  loopDays (scenario2Step terminals p) 0 (maxDays txs) txs

/-- Scenario-3 candidate-row filter for day `day` and compromised-customer
list `comp`: positions (pandas index values) of the rows with day index in
`[day, day+14)` and customer among `comp`.  First argument: position of the
list head. -/
def candIdx (comp : List ℕ) (day : ℕ) : ℕ → List Transaction → List ℕ
  | _, [] => []
  | i, t :: ts =>
    if day ≤ t.TX_TIME_DAYS ∧ t.TX_TIME_DAYS < day + 14 ∧ t.CUSTOMER_ID ∈ comp then
      i :: candIdx comp day (i + 1) ts
    else
      candIdx comp day (i + 1) ts

/-- Scenario-3 marking of one row: amount multiplied by 5, `TX_FRAUD = 1`,
`TX_FRAUD_SCEN = 3`. -/
def scenario3Mark (t : Transaction) : Transaction :=
  { t with TX_AMOUNT := t.TX_AMOUNT * 5, TX_FRAUD := 1, TX_FRAUD_SCEN := 3 }

/-- The row positions drawn on day `day` of scenario 3: 60 customers from
`customer_profiles_table.CUSTOMER_ID.sample(n=60, random_state=day)`, then
`random.seed(day); random.sample(candidates, k=int(len(candidates)/3))`. -/
def scenario3Chosen (customers : List CustomerProfile) (p : FraudOracle)
    (day : ℕ) (txs : List Transaction) : List ℕ :=
  let comp := p.pdSample day (customers.map CustomerProfile.CUSTOMER_ID) 60
  let cand := candIdx comp day 0 txs
  p.pySample day cand (cand.length / 3)

/-- Apply `scenario3Mark` at every position in `chosen`; first argument is
the position of the list head. -/
def markChosen (chosen : List ℕ) : ℕ → List Transaction → List Transaction
  | _, [] => []
  | i, t :: ts =>
    (if i ∈ chosen then scenario3Mark t else t) :: markChosen chosen (i + 1) ts

/-- Body of the scenario-3 day loop. -/
def scenario3Step (customers : List CustomerProfile) (p : FraudOracle)
    (day : ℕ) (txs : List Transaction) : List Transaction :=
  markChosen (scenario3Chosen customers p day txs) 0 txs

/-- The whole scenario-3 pass:
`for day in range(transactions_df.TX_TIME_DAYS.max())`. -/
def scenario3Pass (customers : List CustomerProfile) (p : FraudOracle)
    (txs : List Transaction) : List Transaction :=
  loopDays (scenario3Step customers p) 0 (maxDays txs) txs

/-- `add_frauds`: reset the fraud columns, then the three scenario passes in
order.  Each pass computes its own day bound from the current table. -/
def add_frauds (customers : List CustomerProfile)
    (terminals : List TerminalProfile) (p : FraudOracle)
    (txs : List Transaction) : List Transaction :=
  let t0 := txs.map initFraud
  let t1 := scenario1 t0
  let t2 := scenario2Pass terminals p t1
  scenario3Pass customers p t2

/-- Full pipeline as run by the script: `generate_dataset` followed by
`add_frauds` on its outputs. -/
def full_pipeline (o : NpOracle) (p : PyOracle) (fp : FraudOracle)
    (n_customers n_terminals nb_days : ℤ) (startEpoch : ℤ) (r : ℚ)
    (npState0 pyState0 : ℕ × ℕ) :
    List CustomerProfile × List TerminalProfile × List Transaction :=
  let d := generate_dataset o p n_customers n_terminals nb_days startEpoch r
    npState0 pyState0
  (d.1, d.2.1, add_frauds d.1 d.2.1 fp d.2.2)

/-- Equality of all transaction fields that no fraud pass writes to
(everything except `TX_AMOUNT`, `TX_FRAUD`, `TX_FRAUD_SCEN`). -/
def frameEq (a b : Transaction) : Prop :=
  a.TX_DATETIMEs = b.TX_DATETIMEs ∧ a.CUSTOMER_ID = b.CUSTOMER_ID ∧
  a.TERMINAL_ID = b.TERMINAL_ID ∧ a.TX_TIME_SECONDS = b.TX_TIME_SECONDS ∧
  a.TX_TIME_DAYS = b.TX_TIME_DAYS

/-- "Marked by scenario 1": amount strictly above 220. -/
def hit1 (t : Transaction) : Prop := 220 < t.TX_AMOUNT

/-- "Marked by scenario 2": some iterated day of the scenario-2 loop selects
this row. -/
def hit2 (terminals : List TerminalProfile) (p : FraudOracle)
    (txs : List Transaction) (t : Transaction) : Prop :=
  ∃ d, d < maxDays txs ∧ cond2 terminals p d t

/-- "Selected by scenario 3": some iterated day of the scenario-3 loop draws
this row position. -/
def selected3 (customers : List CustomerProfile) (p : FraudOracle)
    (txs : List Transaction) (i : ℕ) : Prop :=
  ∃ d, d < maxDays txs ∧ i ∈ scenario3Chosen customers p d txs

/-! Concrete fixtures used by witnesses and counterexamples. -/

/-- `np.random` oracle whose normal draws are all 0 (so every time-of-day
draw is exactly 0 seconds) and whose Poisson draws are all 1. -/
def oZero : NpOracle :=
  { uniform := fun _ _ lo _ => lo
    normal := fun _ _ _ _ => 0
    poisson := fun _ _ _ => 1 }

/-- `np.random` oracle whose normal draws are all 100 (time-of-day 100 s,
amounts 100), uniforms return the lower bound, Poisson draws 1. -/
def oHundred : NpOracle :=
  { uniform := fun _ _ lo _ => lo
    normal := fun _ _ _ _ => 100
    poisson := fun _ _ _ => 1 }

/-- `np.random` oracle exercising the negative-amount redraw: draw counter 1
(the time of the single transaction of day 0) gives 500, every other normal
draw is -5; uniforms return the lower bound. -/
def oRedraw : NpOracle :=
  { uniform := fun _ _ lo _ => lo
    normal := fun _ c _ _ => if c = 1 then 500 else -5
    poisson := fun _ _ _ => 1 }

/-- `random.choice` oracle returning the head of the list. -/
def pHead : PyOracle := { choice := fun _ _ l => l.headD 0 }

/-- A customer profile with one available terminal. -/
def prof6 : CustomerProfile :=
  { CUSTOMER_ID := 7, x_customer_id := 0, y_customer_id := 0
    mean_amount := 50, std_amount := 25, mean_nb_tx_per_day := 2
    available_terminals := [0] }

/-- Two terminal positions: one at the customer's location, one at
distance 5. -/
def xyA : List (ℚ × ℚ) := [(0, 0), (3, 4)]

/-- Customer at the origin, before proximity association. -/
def profC1base : CustomerProfile :=
  { CUSTOMER_ID := 3, x_customer_id := 0, y_customer_id := 0
    mean_amount := 50, std_amount := 25, mean_nb_tx_per_day := 2
    available_terminals := [] }

/-- The same customer after proximity association against `xyA` with
radius 10. -/
def profC1 : CustomerProfile :=
  { profC1base with
    available_terminals := get_list_terminals_within_radius profC1base xyA 10 }

/-- Three terminals for the scenario-2 counterexample. -/
def cex3Terminals : List TerminalProfile :=
  [⟨0, 0, 0⟩, ⟨1, 0, 0⟩, ⟨2, 0, 0⟩]

/-- Fraud oracle for the scenario-2 counterexample and witness: the pandas
draw with seed 1 takes from the reversed population (so terminal 2 is among
the two drawn for day 1), any other seed takes from the front;
`random.sample` takes the first `k` elements. -/
def cex3P : FraudOracle :=
  { pdSample := fun s pop n => (if s = 1 then pop.reverse else pop).take n
    pySample := fun _ pop k => pop.take k }

/-- A single transaction on day 1 (the maximum day index) at terminal 2. -/
def cex3Tx : Transaction :=
  { TX_DATETIMEs := 86500, CUSTOMER_ID := 0, TERMINAL_ID := 2, TX_AMOUNT := 10
    TX_TIME_SECONDS := 86500, TX_TIME_DAYS := 1, TX_FRAUD := 0
    TX_FRAUD_SCEN := 0 }

/-- Singleton transaction table for the scenario-2 counterexample. -/
def cex3Txs : List Transaction := [cex3Tx]

/-- A transaction with amount above the scenario-1 threshold. -/
def txBig : Transaction :=
  { TX_DATETIMEs := 0, CUSTOMER_ID := 0, TERMINAL_ID := 0, TX_AMOUNT := 300
    TX_TIME_SECONDS := 0, TX_TIME_DAYS := 0, TX_FRAUD := 0
    TX_FRAUD_SCEN := 0 }

/-- Sixty customers (identifiers 0 to 59) for the scenario-3 witness. -/
def wCust : List CustomerProfile :=
  (List.range 60).map fun k =>
    { CUSTOMER_ID := k, x_customer_id := 0, y_customer_id := 0
      mean_amount := 50, std_amount := 25, mean_nb_tx_per_day := 2
      available_terminals := [] }

/-- Fraud oracle for the scenario-3 witness: both samplers take the first
`k` elements of the population (a valid sample without replacement). -/
def wFP : FraudOracle :=
  { pdSample := fun _ pop n => pop.take n
    pySample := fun _ pop k => pop.take k }

/-- A transaction of customer 5 on day `d` with amount `a`. -/
def mkTx5 (d : ℕ) (a : ℚ) : Transaction :=
  { TX_DATETIMEs := (d : ℤ) * 86400 + 100, CUSTOMER_ID := 5, TERMINAL_ID := 0
    TX_AMOUNT := a, TX_TIME_SECONDS := (d : ℤ) * 86400 + 100
    TX_TIME_DAYS := d, TX_FRAUD := 0, TX_FRAUD_SCEN := 0 }

/-- Four transactions of customer 5: three on day 0, one on day 1, so the
day-0 candidate set of scenario 3 has four rows and a third of it is one
row. -/
def wTxs : List Transaction := [mkTx5 0 10, mkTx5 0 20, mkTx5 0 30, mkTx5 1 40]

/-- A transaction on day 0 at terminal 0, for the scenario-2 witness. -/
def w3Tx : Transaction :=
  { TX_DATETIMEs := 100, CUSTOMER_ID := 0, TERMINAL_ID := 0, TX_AMOUNT := 10
    TX_TIME_SECONDS := 100, TX_TIME_DAYS := 0, TX_FRAUD := 0
    TX_FRAUD_SCEN := 0 }

/-- Two transactions with maximum day index 1, for the scenario-2
witness. -/
def w3Txs : List Transaction := [w3Tx, cex3Tx]

/-! Generic helpers. -/

theorem exists_shift (P : ℕ → Prop) (d0 n : ℕ) :
    (∃ j, j < n + 1 ∧ P (d0 + j)) ↔ P d0 ∨ ∃ j, j < n ∧ P (d0 + 1 + j) := by
  constructor
  · rintro ⟨j, hj, hP⟩
    cases j with
    | zero => exact Or.inl hP
    | succ j1 =>
      refine Or.inr ⟨j1, by omega, ?_⟩
      have h : d0 + (j1 + 1) = d0 + 1 + j1 := by omega
      rwa [h] at hP
  · rintro (hP | ⟨j, hj, hP⟩)
    · exact ⟨0, by omega, hP⟩
    · refine ⟨j + 1, by omega, ?_⟩
      have h : d0 + (j + 1) = d0 + 1 + j := by omega
      rwa [h]

theorem frameEq_refl (t : Transaction) : frameEq t t := ⟨rfl, rfl, rfl, rfl, rfl⟩

theorem frameEq_trans {a b c : Transaction} (h1 : frameEq a b) (h2 : frameEq b c) :
    frameEq a c :=
  ⟨h1.1.trans h2.1, h1.2.1.trans h2.2.1, h1.2.2.1.trans h2.2.2.1,
   h1.2.2.2.1.trans h2.2.2.2.1, h1.2.2.2.2.trans h2.2.2.2.2⟩

theorem forall₂_frameEq_refl (l : List Transaction) : List.Forall₂ frameEq l l := by
  induction l with
  | nil => exact List.Forall₂.nil
  | cons t ts ih => exact List.Forall₂.cons (frameEq_refl t) ih

theorem forall₂_frameEq_trans : ∀ {a b c : List Transaction},
    List.Forall₂ frameEq a b → List.Forall₂ frameEq b c →
    List.Forall₂ frameEq a c := by
  intro a b c h1
  induction h1 generalizing c with
  | nil => intro h2; cases h2; exact List.Forall₂.nil
  | cons hab h1 ih =>
    intro h2
    cases h2 with
    | cons hbc h2 => exact List.Forall₂.cons (frameEq_trans hab hbc) (ih h2)

/-- C5: re-running the full pipeline (profile generation, proximity
association, transaction generation, fraud labeling) with identical seeds
and parameters yields identical output: the result is a pure function of the
oracles and parameters, independent of the incoming global RNG states,
because every stage re-seeds. -/
theorem pipeline_deterministic (o : NpOracle) (p : PyOracle) (fp : FraudOracle)
    (n_customers n_terminals nb_days startEpoch : ℤ) (r : ℚ)
    (s1 t1 s2 t2 : ℕ × ℕ) :
    full_pipeline o p fp n_customers n_terminals nb_days startEpoch r s1 t1 =
      full_pipeline o p fp n_customers n_terminals nb_days startEpoch r s2 t2 := rfl

/-- C9 (amended): with `day_count ≤ 0` the transaction generator silently
returns an empty table, and the profile generators return empty tables for
non-positive counts; no error is signaled. -/
theorem nonpositive_counts_empty (o : NpOracle) (p : PyOracle)
    (prof : CustomerProfile) (startEpoch : ℤ) (rs : ℕ) :
    (∀ nb_days : ℤ, nb_days ≤ 0 →
      generate_transactions_table o p prof startEpoch nb_days = []) ∧
    (∀ n : ℤ, n ≤ 0 → generate_customer_profiles_table o n rs = []) ∧
    (∀ n : ℤ, n ≤ 0 → generate_terminal_profiles_table o n rs = []) := by
  refine ⟨fun nb h => ?_, fun n h => ?_, fun n h => ?_⟩ <;>
    simp [generate_transactions_table, generate_customer_profiles_table,
      generate_terminal_profiles_table, Int.toNat_of_nonpos h, genOuter]

/-- C9 (counterexample): concrete non-positive counts produce empty results
with no error path taken — the claim that an error is signaled is false. -/
theorem nonpositive_counts_cex :
    generate_transactions_table oZero pHead prof6 0 0 = [] ∧
    generate_customer_profiles_table oZero (-3) 0 = [] ∧
    generate_terminal_profiles_table oZero 0 1 = [] := ⟨rfl, rfl, rfl⟩

/-- Witness for `nonpositive_counts_empty` at concrete inputs. -/
theorem nonpositive_counts_empty_w :
    generate_transactions_table oZero pHead prof6 0 (-1) = [] ∧
    generate_customer_profiles_table oZero (-1) 0 = [] ∧
    generate_terminal_profiles_table oZero (-1) 0 = [] :=
  ⟨(nonpositive_counts_empty oZero pHead prof6 0 0).1 (-1) (by decide),
   (nonpositive_counts_empty oZero pHead prof6 0 0).2.1 (-1) (by decide),
   (nonpositive_counts_empty oZero pHead prof6 0 0).2.2 (-1) (by decide)⟩

/-- C8: after the scenario-1 pass of `add_frauds` (the stateless single
sweep following the fraud-column reset), every transaction with amount
strictly above 220 carries fraud label 1 and scenario tag 1. -/
theorem scenario1_marks_large_amounts (txs : List Transaction) (t : Transaction)
    (h : t ∈ scenario1 (txs.map initFraud)) (ha : 220 < t.TX_AMOUNT) :
    t.TX_FRAUD = 1 ∧ t.TX_FRAUD_SCEN = 1 := by
  unfold scenario1 at h
  rw [List.map_map] at h
  obtain ⟨t0, -, rfl⟩ := List.mem_map.mp h
  by_cases hc : 220 < (initFraud t0).TX_AMOUNT
  · simp [Function.comp, scenario1Mark, if_pos hc]
  · exfalso
    exact hc (by simpa [Function.comp, scenario1Mark, if_neg hc] using ha)

/-- Witness for `scenario1_marks_large_amounts` on a concrete transaction. -/
theorem scenario1_marks_large_amounts_w :
    (scenario1Mark (initFraud txBig)).TX_FRAUD = 1 ∧
      (scenario1Mark (initFraud txBig)).TX_FRAUD_SCEN = 1 :=
  scenario1_marks_large_amounts [txBig] _ (by decide) (by decide)

/-! Structural lemmas about the transaction generator. -/

theorem genInner_mem (o : NpOracle) (p : PyOracle) (prof : CustomerProfile)
    (startEpoch : ℤ) (day : ℕ) :
    ∀ (k npc pyc : ℕ) (tx : Transaction),
      tx ∈ (genInner o p prof startEpoch day k npc pyc).1 →
      (prof.available_terminals ≠ [] ∧
        ∃ c, tx.TERMINAL_ID = p.choice prof.CUSTOMER_ID c prof.available_terminals) ∧
      (∃ s : ℤ, 0 < s ∧ s < 86400 ∧
        tx.TX_TIME_SECONDS = s + (day : ℤ) * 86400 ∧ tx.TX_TIME_DAYS = day) ∧
      (∃ q : ℚ, tx.TX_AMOUNT = round2 q ∧
        (0 ≤ q ∨ ∃ c, q = o.uniform prof.CUSTOMER_ID c 0 (prof.mean_amount * 2))) := by
  intro k
  induction k with
  | zero => intro npc pyc tx h; exact absurd h (List.not_mem_nil tx)
  | succ n ih =>
    intro npc pyc tx h
    rw [genInner] at h
    by_cases h1 : 0 < truncToInt (o.normal prof.CUSTOMER_ID npc 43200 20000) ∧
        truncToInt (o.normal prof.CUSTOMER_ID npc 43200 20000) < 86400
    · rw [if_pos h1] at h
      by_cases h2 : prof.available_terminals ≠ []
      · rw [if_pos h2] at h
        rcases List.mem_cons.mp h with rfl | h
        · refine ⟨⟨h2, pyc, rfl⟩, ⟨truncToInt (o.normal prof.CUSTOMER_ID npc 43200 20000),
            h1.1, h1.2, rfl, rfl⟩, ?_⟩
          by_cases h3 : o.normal prof.CUSTOMER_ID (npc + 1) prof.mean_amount prof.std_amount < 0
          · exact ⟨_, by rw [if_pos h3], Or.inr ⟨npc + 2, rfl⟩⟩
          · exact ⟨_, by rw [if_neg h3], Or.inl (not_lt.mp h3)⟩
        · exact ih _ _ tx h
      · rw [if_neg h2] at h
        exact ih _ _ tx h
    · rw [if_neg h1] at h
      exact ih _ _ tx h

theorem genInner_skip (o : NpOracle) (p : PyOracle) (prof : CustomerProfile)
    (startEpoch : ℤ) (day k npc pyc : ℕ)
    (h : ¬(0 < truncToInt (o.normal prof.CUSTOMER_ID npc 43200 20000) ∧
      truncToInt (o.normal prof.CUSTOMER_ID npc 43200 20000) < 86400)) :
    genInner o p prof startEpoch day (k + 1) npc pyc =
      genInner o p prof startEpoch day k (npc + 1) pyc := by
  rw [genInner, if_neg h]

theorem genInner_no_terminals (o : NpOracle) (p : PyOracle)
    (prof : CustomerProfile) (startEpoch : ℤ) (day : ℕ)
    (hav : prof.available_terminals = []) :
    ∀ k npc pyc, (genInner o p prof startEpoch day k npc pyc).1 = [] := by
  intro k
  induction k with
  | zero => intro npc pyc; rfl
  | succ n ih =>
    intro npc pyc
    rw [genInner]
    by_cases h1 : 0 < truncToInt (o.normal prof.CUSTOMER_ID npc 43200 20000) ∧
        truncToInt (o.normal prof.CUSTOMER_ID npc 43200 20000) < 86400
    · rw [if_pos h1, if_neg (by simp [hav])]
      exact ih _ _
    · rw [if_neg h1]
      exact ih _ _

theorem genOuter_no_terminals (o : NpOracle) (p : PyOracle)
    (prof : CustomerProfile) (startEpoch : ℤ)
    (hav : prof.available_terminals = []) :
    ∀ rem day npc pyc, genOuter o p prof startEpoch day rem npc pyc = [] := by
  intro rem
  induction rem with
  | zero => intro day npc pyc; rfl
  | succ n ih =>
    intro day npc pyc
    rw [genOuter]
    rw [genInner_no_terminals o p prof startEpoch day hav, List.nil_append]
    exact ih _ _ _

theorem genOuter_mem (o : NpOracle) (p : PyOracle) (prof : CustomerProfile)
    (startEpoch : ℤ) :
    ∀ (rem day npc pyc : ℕ) (tx : Transaction),
      tx ∈ genOuter o p prof startEpoch day rem npc pyc →
      (prof.available_terminals ≠ [] ∧
        ∃ c, tx.TERMINAL_ID = p.choice prof.CUSTOMER_ID c prof.available_terminals) ∧
      (0 < tx.TX_TIME_SECONDS - (tx.TX_TIME_DAYS : ℤ) * 86400 ∧
        tx.TX_TIME_SECONDS - (tx.TX_TIME_DAYS : ℤ) * 86400 < 86400) ∧
      (∃ q : ℚ, tx.TX_AMOUNT = round2 q ∧
        (0 ≤ q ∨ ∃ c, q = o.uniform prof.CUSTOMER_ID c 0 (prof.mean_amount * 2))) := by
  intro rem
  induction rem with
  | zero => intro day npc pyc tx h; exact absurd h (List.not_mem_nil tx)
  | succ n ih =>
    intro day npc pyc tx h
    rw [genOuter] at h
    rcases List.mem_append.mp h with h | h
    · obtain ⟨hterm, ⟨s, hs1, hs2, hsec, hday⟩, hamt⟩ :=
        genInner_mem o p prof startEpoch day _ _ _ tx h
      refine ⟨hterm, ?_, hamt⟩
      rw [hsec, hday]
      constructor <;> omega
    · exact ih _ _ _ tx h

theorem mem_withinRadiusIdx (cx cy r : ℚ) :
    ∀ (ts : List (ℚ × ℚ)) (i0 j : ℕ),
      j ∈ withinRadiusIdx cx cy r i0 ts ↔
      ∃ k pt, ts.get? k = some pt ∧ j = i0 + k ∧ 0 ≤ r ∧
        sqDist cx cy pt.1 pt.2 < r * r := by
  intro ts
  induction ts with
  | nil => simp [withinRadiusIdx]
  | cons t ts ih =>
    intro i0 j
    by_cases hc : 0 ≤ r ∧ sqDist cx cy t.1 t.2 < r * r
    · rw [withinRadiusIdx, if_pos hc, List.mem_cons, ih (i0 + 1) j]
      constructor
      · rintro (rfl | ⟨k, pt, hget, rfl, hcond⟩)
        · exact ⟨0, t, rfl, by omega, hc⟩
        · exact ⟨k + 1, pt, hget, by omega, hcond⟩
      · rintro ⟨k, pt, hget, rfl, hcond⟩
        cases k with
        | zero =>
          left
          omega
        | succ k1 =>
          right
          exact ⟨k1, pt, hget, by omega, hcond⟩
    · rw [withinRadiusIdx, if_neg hc, ih (i0 + 1) j]
      constructor
      · rintro ⟨k, pt, hget, rfl, hcond⟩
        exact ⟨k + 1, pt, hget, by omega, hcond⟩
      · rintro ⟨k, pt, hget, rfl, hcond⟩
        cases k with
        | zero =>
          exfalso
          rw [List.get?] at hget
          cases hget
          exact hc hcond
        | succ k1 =>
          exact ⟨k1, pt, hget, by omega, hcond⟩

/-- C1: when the available-terminal column is the proximity-association
result, every generated transaction's terminal lies in the customer's
reachable set; an empty reachable set yields no transactions; and the
reachable set is exactly the terminal identifiers whose Euclidean distance
to the customer is strictly below `r` (stated square-root-free: distance
squared below `r * r` with `0 ≤ r`). -/
theorem tx_terminal_in_reachable_set (o : NpOracle) (p : PyOracle)
    (hch : ∀ s c l, l ≠ [] → p.choice s c l ∈ l)
    (cp : CustomerProfile) (x_y_terminals : List (ℚ × ℚ)) (r : ℚ)
    (startEpoch nb_days : ℤ)
    (hav : cp.available_terminals = get_list_terminals_within_radius cp x_y_terminals r) :
    (∀ tx ∈ generate_transactions_table o p cp startEpoch nb_days,
      tx.TERMINAL_ID ∈ get_list_terminals_within_radius cp x_y_terminals r) ∧
    (get_list_terminals_within_radius cp x_y_terminals r = [] →
      generate_transactions_table o p cp startEpoch nb_days = []) ∧
    (∀ tid, tid ∈ get_list_terminals_within_radius cp x_y_terminals r ↔
      ∃ pt, x_y_terminals.get? tid = some pt ∧ 0 ≤ r ∧
        sqDist cp.x_customer_id cp.y_customer_id pt.1 pt.2 < r * r) := by
  refine ⟨?_, ?_, ?_⟩
  · intro tx htx
    obtain ⟨⟨hne, c, hc⟩, -, -⟩ :=
      genOuter_mem o p cp startEpoch _ _ _ _ tx htx
    rw [hc, ← hav]
    exact hch _ c _ hne
  · intro hempty
    exact genOuter_no_terminals o p cp startEpoch (hav.trans hempty) _ _ _ _
  · intro tid
    rw [get_list_terminals_within_radius, mem_withinRadiusIdx]
    constructor
    · rintro ⟨k, pt, hget, rfl, hcond⟩
      exact ⟨pt, by simpa using hget, hcond⟩
    · rintro ⟨pt, hget, hcond⟩
      exact ⟨tid, pt, hget, by omega, hcond⟩

/-- Witness for `tx_terminal_in_reachable_set` on concrete oracles, a
customer at the origin and two terminals within radius 10. -/
theorem tx_terminal_in_reachable_set_w :
    (∀ tx ∈ generate_transactions_table oHundred pHead profC1 0 1,
      tx.TERMINAL_ID ∈ get_list_terminals_within_radius profC1 xyA 10) ∧
    (get_list_terminals_within_radius profC1 xyA 10 = [] →
      generate_transactions_table oHundred pHead profC1 0 1 = []) ∧
    (∀ tid, tid ∈ get_list_terminals_within_radius profC1 xyA 10 ↔
      ∃ pt, xyA.get? tid = some pt ∧ (0 : ℚ) ≤ 10 ∧
        sqDist profC1.x_customer_id profC1.y_customer_id pt.1 pt.2 < 10 * 10) :=
  tx_terminal_in_reachable_set oHundred pHead
    (fun _ _ l hl => by
      cases l with
      | nil => exact absurd rfl hl
      | cons a t => exact List.mem_cons_self a t)
    profC1 xyA 10 0 1 rfl

/-- C6 (amended): every kept transaction's time-of-day offset lies strictly
between 0 and 86400 (in particular `0 ≤ time_of_day < 86400` holds), and a
drawn offset outside the open interval — including a draw of exactly 0
seconds — is discarded by skipping the iteration, not retried. -/
theorem time_window_strict (o : NpOracle) (p : PyOracle)
    (prof : CustomerProfile) (startEpoch nb_days : ℤ) :
    (∀ tx ∈ generate_transactions_table o p prof startEpoch nb_days,
      0 < tx.TX_TIME_SECONDS - (tx.TX_TIME_DAYS : ℤ) * 86400 ∧
      tx.TX_TIME_SECONDS - (tx.TX_TIME_DAYS : ℤ) * 86400 < 86400) ∧
    (∀ day k npc pyc,
      ¬(0 < truncToInt (o.normal prof.CUSTOMER_ID npc 43200 20000) ∧
        truncToInt (o.normal prof.CUSTOMER_ID npc 43200 20000) < 86400) →
      genInner o p prof startEpoch day (k + 1) npc pyc =
        genInner o p prof startEpoch day k (npc + 1) pyc) := by
  constructor
  · intro tx htx
    exact (genOuter_mem o p prof startEpoch _ _ _ _ tx htx).2.1
  · intro day k npc pyc h
    exact genInner_skip o p prof startEpoch day k npc pyc h

/-- C6 (counterexample): with an oracle whose normal draws are all 0, the
single time-of-day draw of the run is exactly 0 seconds — inside
`[0, 86400)` — yet no transaction is kept, refuting "a draw of exactly 0
seconds is kept". -/
theorem zero_second_draw_discarded_cex :
    truncToInt (oZero.normal 7 1 43200 20000) = 0 ∧
    (0 : ℤ) ≤ truncToInt (oZero.normal 7 1 43200 20000) ∧
    truncToInt (oZero.normal 7 1 43200 20000) < 86400 ∧
    prof6.available_terminals ≠ [] ∧
    generate_transactions_table oZero pHead prof6 0 1 = [] := by decide

/-- Witness for `time_window_strict`: the bound on a concrete run, and the
skip equation discharged at the all-zero oracle. -/
theorem time_window_strict_w :
    (∀ tx ∈ generate_transactions_table oHundred pHead prof6 0 1,
      0 < tx.TX_TIME_SECONDS - (tx.TX_TIME_DAYS : ℤ) * 86400 ∧
      tx.TX_TIME_SECONDS - (tx.TX_TIME_DAYS : ℤ) * 86400 < 86400) ∧
    genInner oZero pHead prof6 0 0 1 1 0 = genInner oZero pHead prof6 0 0 0 2 0 :=
  ⟨(time_window_strict oHundred pHead prof6 0 1).1,
   (time_window_strict oZero pHead prof6 0 1).2 0 0 1 0 (by decide)⟩

theorem round2_nonneg (q : ℚ) (h : 0 ≤ q) : 0 ≤ round2 q := by
  unfold round2
  have h1 : (0 : ℤ) ≤ round (q * 100) := by
    rw [round_eq, Int.floor_nonneg]
    nlinarith
  have h2 : (0 : ℚ) ≤ ((round (q * 100) : ℤ) : ℚ) := by exact_mod_cast h1
  positivity

/-- C7: every generated transaction's amount is non-negative: a negative
normal draw is replaced by a uniform draw on `[0, 2 * mean_amount]`
(a redraw, not a clamp), so under the uniform oracle's interval contract and
a non-negative customer mean, all amounts are `≥ 0`. -/
theorem amounts_nonneg (o : NpOracle) (p : PyOracle) (prof : CustomerProfile)
    (startEpoch nb_days : ℤ)
    (hmean : 0 ≤ prof.mean_amount)
    (huni : ∀ (s c : ℕ) (lo hi : ℚ), lo ≤ hi →
      lo ≤ o.uniform s c lo hi ∧ o.uniform s c lo hi ≤ hi) :
    ∀ tx ∈ generate_transactions_table o p prof startEpoch nb_days,
      0 ≤ tx.TX_AMOUNT := by
  intro tx htx
  obtain ⟨-, -, q, hq, hcase⟩ := genOuter_mem o p prof startEpoch _ _ _ _ tx htx
  rw [hq]
  apply round2_nonneg
  rcases hcase with h | ⟨c, rfl⟩
  · exact h
  · exact ((huni prof.CUSTOMER_ID c 0 (prof.mean_amount * 2)) (by linarith)).1

/-- Witness for `amounts_nonneg`: the one transaction generated by an
oracle whose amount draws are negative (exercising the uniform redraw) has
a non-negative amount. -/
theorem amounts_nonneg_w :
    0 ≤ ((generate_transactions_table oRedraw pHead prof6 0 1).headD txBig).TX_AMOUNT :=
  amounts_nonneg oRedraw pHead prof6 0 1 (by decide)
    (fun _ _ lo hi h => ⟨le_refl lo, h⟩) _
    (by
      have hne : generate_transactions_table oRedraw pHead prof6 0 1 ≠ [] :=
        List.ne_nil_of_length_pos
          (by
            rw [show (generate_transactions_table oRedraw pHead prof6 0 1).length = 1
              from rfl]
            omega)
      cases hl : generate_transactions_table oRedraw pHead prof6 0 1 with
      | nil => exact absurd hl hne
      | cons a t => exact List.mem_cons_self a t)

/-! Structural lemmas about the fraud passes. -/

theorem scenario2Step_get? (terminals : List TerminalProfile) (p : FraudOracle)
    (day : ℕ) (txs : List Transaction) (i : ℕ) :
    (scenario2Step terminals p day txs).get? i =
      (txs.get? i).map fun t =>
        if cond2 terminals p day t then scenario2Mark t else t := by
  rw [scenario2Step]
  exact List.get?_map _ _ _

theorem markChosen_get? (chosen : List ℕ) :
    ∀ (txs : List Transaction) (i0 i : ℕ),
      (markChosen chosen i0 txs).get? i =
        (txs.get? i).map fun t =>
          if i0 + i ∈ chosen then scenario3Mark t else t := by
  intro txs
  induction txs with
  | nil => intro i0 i; rfl
  | cons t ts ih =>
    intro i0 i
    cases i with
    | zero => rfl
    | succ i1 =>
      show (markChosen chosen (i0 + 1) ts).get? i1 = _
      rw [ih (i0 + 1) i1]
      have h : i0 + 1 + i1 = i0 + (i1 + 1) := by omega
      rw [h]
      rfl

theorem scenario3Step_get? (customers : List CustomerProfile) (p : FraudOracle)
    (day : ℕ) (txs : List Transaction) (i : ℕ) :
    (scenario3Step customers p day txs).get? i =
      (txs.get? i).map fun t =>
        if i ∈ scenario3Chosen customers p day txs then scenario3Mark t else t := by
  rw [scenario3Step, markChosen_get?]
  simp only [Nat.zero_add]

theorem frameEq_initFraud (t : Transaction) : frameEq (initFraud t) t :=
  ⟨rfl, rfl, rfl, rfl, rfl⟩

theorem frameEq_scenario1Mark (t : Transaction) : frameEq (scenario1Mark t) t := by
  unfold scenario1Mark
  split <;> exact ⟨rfl, rfl, rfl, rfl, rfl⟩

theorem frameEq_scenario2Mark (t : Transaction) : frameEq (scenario2Mark t) t :=
  ⟨rfl, rfl, rfl, rfl, rfl⟩

theorem frameEq_scenario3Mark (t : Transaction) : frameEq (scenario3Mark t) t :=
  ⟨rfl, rfl, rfl, rfl, rfl⟩

theorem forall₂_map_self (f : Transaction → Transaction)
    (hf : ∀ t, frameEq (f t) t) :
    ∀ l : List Transaction, List.Forall₂ frameEq (l.map f) l := by
  intro l
  induction l with
  | nil => exact List.Forall₂.nil
  | cons t ts ih => exact List.Forall₂.cons (hf t) ih

theorem markChosen_forall₂ (chosen : List ℕ) :
    ∀ (i0 : ℕ) (txs : List Transaction),
      List.Forall₂ frameEq (markChosen chosen i0 txs) txs := by
  intro i0 txs
  induction txs generalizing i0 with
  | nil => exact List.Forall₂.nil
  | cons t ts ih =>
    rw [markChosen]
    refine List.Forall₂.cons ?_ (ih (i0 + 1))
    split
    · exact frameEq_scenario3Mark t
    · exact frameEq_refl t

theorem scenario1_forall₂ (txs : List Transaction) :
    List.Forall₂ frameEq (scenario1 txs) txs :=
  forall₂_map_self _ frameEq_scenario1Mark txs

theorem initFraud_forall₂ (txs : List Transaction) :
    List.Forall₂ frameEq (txs.map initFraud) txs :=
  forall₂_map_self _ frameEq_initFraud txs

theorem scenario2Step_forall₂ (terminals : List TerminalProfile) (p : FraudOracle)
    (day : ℕ) (txs : List Transaction) :
    List.Forall₂ frameEq (scenario2Step terminals p day txs) txs :=
  forall₂_map_self _
    (fun t => by
      split
      · exact frameEq_scenario2Mark t
      · exact frameEq_refl t) txs

theorem scenario3Step_forall₂ (customers : List CustomerProfile) (p : FraudOracle)
    (day : ℕ) (txs : List Transaction) :
    List.Forall₂ frameEq (scenario3Step customers p day txs) txs :=
  markChosen_forall₂ _ 0 txs

theorem loopDays_forall₂ (step : ℕ → List Transaction → List Transaction)
    (hstep : ∀ d l, List.Forall₂ frameEq (step d l) l) :
    ∀ (rem d0 : ℕ) (txs : List Transaction),
      List.Forall₂ frameEq (loopDays step d0 rem txs) txs := by
  intro rem
  induction rem with
  | zero => intro d0 txs; exact forall₂_frameEq_refl txs
  | succ n ih =>
    intro d0 txs
    rw [loopDays]
    exact forall₂_frameEq_trans (ih (d0 + 1) (step d0 txs)) (hstep d0 txs)

theorem maxDays_eq_of_forall₂ {a b : List Transaction}
    (h : List.Forall₂ frameEq a b) : maxDays a = maxDays b := by
  induction h with
  | nil => rfl
  | cons hab h ih =>
    simp only [maxDays, List.foldr_cons] at ih ⊢
    rw [hab.2.2.2.2, ih]

theorem candIdx_eq_of_forall₂ (comp : List ℕ) (day : ℕ) :
    ∀ {a b : List Transaction}, List.Forall₂ frameEq a b →
      ∀ i0, candIdx comp day i0 a = candIdx comp day i0 b := by
  intro a b h
  induction h with
  | nil => intro i0; rfl
  | cons hab h ih =>
    intro i0
    rw [candIdx, candIdx, hab.2.1, hab.2.2.2.2, ih (i0 + 1)]

theorem scenario3Chosen_eq_of_forall₂ (customers : List CustomerProfile)
    (p : FraudOracle) (day : ℕ) {a b : List Transaction}
    (h : List.Forall₂ frameEq a b) :
    scenario3Chosen customers p day a = scenario3Chosen customers p day b := by
  simp only [scenario3Chosen]
  rw [candIdx_eq_of_forall₂ _ _ h 0]

theorem loop2_get? (terminals : List TerminalProfile) (p : FraudOracle) :
    ∀ (rem d0 : ℕ) (txs : List Transaction) (i : ℕ) (t : Transaction),
      txs.get? i = some t →
      ∃ t2, (loopDays (scenario2Step terminals p) d0 rem txs).get? i = some t2 ∧
        ((∃ j, j < rem ∧ cond2 terminals p (d0 + j) t) → t2 = scenario2Mark t) ∧
        ((¬∃ j, j < rem ∧ cond2 terminals p (d0 + j) t) → t2 = t) := by
  intro rem
  induction rem with
  | zero =>
    intro d0 txs i t h
    exact ⟨t, h, fun ⟨j, hj, _⟩ => absurd hj (Nat.not_lt_zero j), fun _ => rfl⟩
  | succ n ih =>
    intro d0 txs i t h
    rw [loopDays]
    have hstep : (scenario2Step terminals p d0 txs).get? i =
        some (if cond2 terminals p d0 t then scenario2Mark t else t) := by
      rw [scenario2Step_get?, h]
      rfl
    by_cases hc : cond2 terminals p d0 t
    · rw [if_pos hc] at hstep
      obtain ⟨t2, hget, hyes, hno⟩ := ih (d0 + 1) _ i _ hstep
      refine ⟨t2, hget, fun _ => ?_,
        fun hn => absurd (⟨0, by omega, hc⟩ : ∃ j, j < n + 1 ∧
          cond2 terminals p (d0 + j) t) hn⟩
      by_cases h2 : ∃ j, j < n ∧ cond2 terminals p (d0 + 1 + j) (scenario2Mark t)
      · rw [hyes h2]
        rfl
      · exact hno h2
    · rw [if_neg hc] at hstep
      obtain ⟨t2, hget, hyes, hno⟩ := ih (d0 + 1) _ i _ hstep
      refine ⟨t2, hget, ?_, ?_⟩
      · intro hex
        rcases (exists_shift (fun d => cond2 terminals p d t) d0 n).mp hex with h0 | h1
        · exact absurd h0 hc
        · exact hyes h1
      · intro hn
        apply hno
        rintro ⟨j, hj, hcj⟩
        exact hn ((exists_shift (fun d => cond2 terminals p d t) d0 n).mpr
          (Or.inr ⟨j, hj, hcj⟩))

theorem loop3_get? (customers : List CustomerProfile) (p : FraudOracle) :
    ∀ (rem d0 : ℕ) (txs : List Transaction) (i : ℕ) (t : Transaction),
      txs.get? i = some t →
      ∃ t3, (loopDays (scenario3Step customers p) d0 rem txs).get? i = some t3 ∧
        frameEq t3 t ∧
        ((∃ j, j < rem ∧ i ∈ scenario3Chosen customers p (d0 + j) txs) →
          t3.TX_FRAUD = 1 ∧ t3.TX_FRAUD_SCEN = 3) ∧
        ((¬∃ j, j < rem ∧ i ∈ scenario3Chosen customers p (d0 + j) txs) → t3 = t) := by
  intro rem
  induction rem with
  | zero =>
    intro d0 txs i t h
    exact ⟨t, h, frameEq_refl t, fun ⟨j, hj, _⟩ => absurd hj (Nat.not_lt_zero j),
      fun _ => rfl⟩
  | succ n ih =>
    intro d0 txs i t h
    rw [loopDays]
    have hfor : List.Forall₂ frameEq (scenario3Step customers p d0 txs) txs :=
      scenario3Step_forall₂ customers p d0 txs
    have hchosen : ∀ d, scenario3Chosen customers p d (scenario3Step customers p d0 txs) =
        scenario3Chosen customers p d txs :=
      fun d => scenario3Chosen_eq_of_forall₂ customers p d hfor
    have hstep : (scenario3Step customers p d0 txs).get? i =
        some (if i ∈ scenario3Chosen customers p d0 txs then scenario3Mark t else t) := by
      rw [scenario3Step_get?, h]
      rfl
    by_cases hc : i ∈ scenario3Chosen customers p d0 txs
    · rw [if_pos hc] at hstep
      obtain ⟨t3, hget, hfr, hyes, hno⟩ := ih (d0 + 1) _ i _ hstep
      simp only [hchosen] at hyes hno
      refine ⟨t3, hget, frameEq_trans hfr (frameEq_scenario3Mark t), fun _ => ?_,
        fun hn => absurd (⟨0, by omega, hc⟩ : ∃ j, j < n + 1 ∧
          i ∈ scenario3Chosen customers p (d0 + j) txs) hn⟩
      by_cases h2 : ∃ j, j < n ∧ i ∈ scenario3Chosen customers p (d0 + 1 + j) txs
      · exact hyes h2
      · rw [hno h2]
        exact ⟨rfl, rfl⟩
    · rw [if_neg hc] at hstep
      obtain ⟨t3, hget, hfr, hyes, hno⟩ := ih (d0 + 1) _ i _ hstep
      simp only [hchosen] at hyes hno
      refine ⟨t3, hget, hfr, ?_, ?_⟩
      · intro hex
        rcases (exists_shift (fun d => i ∈ scenario3Chosen customers p d txs) d0 n).mp hex
          with h0 | h1
        · exact absurd h0 hc
        · exact hyes h1
      · intro hn
        apply hno
        rintro ⟨j, hj, hcj⟩
        exact hn ((exists_shift (fun d => i ∈ scenario3Chosen customers p d txs) d0 n).mpr
          (Or.inr ⟨j, hj, hcj⟩))

/-! Assembling the three passes of `add_frauds`. -/

theorem cond2_congr (terminals : List TerminalProfile) (p : FraudOracle)
    (day : ℕ) {a b : Transaction} (h : frameEq a b) :
    cond2 terminals p day a ↔ cond2 terminals p day b := by
  unfold cond2
  rw [h.2.2.1, h.2.2.2.2]

theorem pre1_of_hit1 (t : Transaction) (h : hit1 t) :
    scenario1Mark (initFraud t) = { t with TX_FRAUD := 1, TX_FRAUD_SCEN := 1 } := by
  unfold scenario1Mark
  rw [if_pos (show 220 < (initFraud t).TX_AMOUNT from h)]
  rfl

theorem pre1_of_miss1 (t : Transaction) (h : ¬hit1 t) :
    scenario1Mark (initFraud t) = { t with TX_FRAUD := 0, TX_FRAUD_SCEN := 0 } := by
  unfold scenario1Mark
  rw [if_neg (show ¬220 < (initFraud t).TX_AMOUNT from h)]
  rfl

theorem stage1_get? (txs : List Transaction) (i : ℕ) :
    (scenario1 (txs.map initFraud)).get? i =
      (txs.get? i).map fun t => scenario1Mark (initFraud t) := by
  rw [scenario1, List.map_map]
  exact List.get?_map _ _ _

theorem stage1_forall₂ (txs : List Transaction) :
    List.Forall₂ frameEq (scenario1 (txs.map initFraud)) txs :=
  forall₂_frameEq_trans (scenario1_forall₂ _) (initFraud_forall₂ txs)

theorem stage2_forall₂ (terminals : List TerminalProfile) (p : FraudOracle)
    (txs : List Transaction) :
    List.Forall₂ frameEq
      (scenario2Pass terminals p (scenario1 (txs.map initFraud))) txs :=
  forall₂_frameEq_trans
    (loopDays_forall₂ _ (scenario2Step_forall₂ terminals p) _ _ _)
    (stage1_forall₂ txs)

theorem add_frauds_forall₂ (customers : List CustomerProfile)
    (terminals : List TerminalProfile) (p : FraudOracle)
    (txs : List Transaction) :
    List.Forall₂ frameEq (add_frauds customers terminals p txs) txs :=
  forall₂_frameEq_trans
    (loopDays_forall₂ _ (scenario3Step_forall₂ customers p) _ _ _)
    (stage2_forall₂ terminals p txs)

theorem add_frauds_get? (customers : List CustomerProfile)
    (terminals : List TerminalProfile) (p : FraudOracle)
    (txs : List Transaction) (i : ℕ) (t : Transaction)
    (h : txs.get? i = some t) :
    ∃ tf, (add_frauds customers terminals p txs).get? i = some tf ∧
      frameEq tf t ∧
      (selected3 customers p txs i →
        tf.TX_FRAUD = 1 ∧ tf.TX_FRAUD_SCEN = 3) ∧
      (¬selected3 customers p txs i → hit2 terminals p txs t →
        tf.TX_FRAUD = 1 ∧ tf.TX_FRAUD_SCEN = 2 ∧ tf.TX_AMOUNT = t.TX_AMOUNT) ∧
      (¬selected3 customers p txs i → ¬hit2 terminals p txs t → hit1 t →
        tf.TX_FRAUD = 1 ∧ tf.TX_FRAUD_SCEN = 1 ∧ tf.TX_AMOUNT = t.TX_AMOUNT) ∧
      (¬selected3 customers p txs i → ¬hit2 terminals p txs t → ¬hit1 t →
        tf.TX_FRAUD = 0 ∧ tf.TX_FRAUD_SCEN = 0 ∧ tf.TX_AMOUNT = t.TX_AMOUNT) := by
  -- Stage 1: reset + scenario 1.
  have h1 : (scenario1 (txs.map initFraud)).get? i =
      some (scenario1Mark (initFraud t)) := by
    rw [stage1_get?, h]
    rfl
  have hf1 : List.Forall₂ frameEq (scenario1 (txs.map initFraud)) txs :=
    stage1_forall₂ txs
  have hmax1 : maxDays (scenario1 (txs.map initFraud)) = maxDays txs :=
    maxDays_eq_of_forall₂ hf1
  have hpre1 : frameEq (scenario1Mark (initFraud t)) t :=
    frameEq_trans (frameEq_scenario1Mark _) (frameEq_initFraud t)
  -- Stage 2: the scenario-2 day loop.
  obtain ⟨t2, h2get, h2yes, h2no⟩ :=
    loop2_get? terminals p (maxDays (scenario1 (txs.map initFraud))) 0 _ i _ h1
  have hwin2 : (∃ j, j < maxDays (scenario1 (txs.map initFraud)) ∧
      cond2 terminals p (0 + j) (scenario1Mark (initFraud t))) ↔
      hit2 terminals p txs t := by
    unfold hit2
    rw [hmax1]
    constructor
    · rintro ⟨j, hj, hc⟩
      rw [Nat.zero_add] at hc
      exact ⟨j, hj, (cond2_congr terminals p j hpre1).mp hc⟩
    · rintro ⟨d, hd, hc⟩
      refine ⟨d, hd, ?_⟩
      rw [Nat.zero_add]
      exact (cond2_congr terminals p d hpre1).mpr hc
  have h2get' : (scenario2Pass terminals p (scenario1 (txs.map initFraud))).get? i =
      some t2 := h2get
  have hf2 : List.Forall₂ frameEq
      (scenario2Pass terminals p (scenario1 (txs.map initFraud))) txs :=
    stage2_forall₂ terminals p txs
  have hmax2 : maxDays (scenario2Pass terminals p (scenario1 (txs.map initFraud))) =
      maxDays txs := maxDays_eq_of_forall₂ hf2
  have hch2 : ∀ d, scenario3Chosen customers p d
      (scenario2Pass terminals p (scenario1 (txs.map initFraud))) =
      scenario3Chosen customers p d txs :=
    fun d => scenario3Chosen_eq_of_forall₂ customers p d hf2
  -- Stage 3: the scenario-3 day loop.
  obtain ⟨tf, h3get, h3fr, h3yes, h3no⟩ :=
    loop3_get? customers p
      (maxDays (scenario2Pass terminals p (scenario1 (txs.map initFraud)))) 0 _ i _ h2get'
  have hwin3 : (∃ j, j < maxDays (scenario2Pass terminals p (scenario1 (txs.map initFraud))) ∧
      i ∈ scenario3Chosen customers p (0 + j)
        (scenario2Pass terminals p (scenario1 (txs.map initFraud)))) ↔
      selected3 customers p txs i := by
    unfold selected3
    rw [hmax2]
    constructor
    · rintro ⟨j, hj, hc⟩
      rw [Nat.zero_add, hch2 j] at hc
      exact ⟨j, hj, hc⟩
    · rintro ⟨d, hd, hc⟩
      refine ⟨d, hd, ?_⟩
      rw [Nat.zero_add, hch2 d]
      exact hc
  -- The intermediate element after stage 2, by cases on the windows.
  have ht2 : (hit2 terminals p txs t → t2 = scenario2Mark (scenario1Mark (initFraud t))) ∧
      (¬hit2 terminals p txs t → t2 = scenario1Mark (initFraud t)) :=
    ⟨fun hw => h2yes (hwin2.mpr hw), fun hw => h2no (fun hx => hw (hwin2.mp hx))⟩
  refine ⟨tf, h3get, ?_, ?_, ?_, ?_, ?_⟩
  · -- frame fields survive all three passes
    refine frameEq_trans h3fr ?_
    by_cases hw : hit2 terminals p txs t
    · rw [ht2.1 hw]
      exact frameEq_trans (frameEq_scenario2Mark _) hpre1
    · rw [ht2.2 hw]
      exact hpre1
  · intro hsel
    exact h3yes (hwin3.mpr hsel)
  · intro hsel hw
    have htf : tf = t2 := h3no (fun hx => hsel (hwin3.mp hx))
    rw [htf, ht2.1 hw]
    by_cases h1t : hit1 t
    · rw [pre1_of_hit1 t h1t]
      exact ⟨rfl, rfl, rfl⟩
    · rw [pre1_of_miss1 t h1t]
      exact ⟨rfl, rfl, rfl⟩
  · intro hsel hw h1t
    have htf : tf = t2 := h3no (fun hx => hsel (hwin3.mp hx))
    rw [htf, ht2.2 hw, pre1_of_hit1 t h1t]
    exact ⟨rfl, rfl, rfl⟩
  · intro hsel hw h1t
    have htf : tf = t2 := h3no (fun hx => hsel (hwin3.mp hx))
    rw [htf, ht2.2 hw, pre1_of_miss1 t h1t]
    exact ⟨rfl, rfl, rfl⟩

/-- C2: after all three passes of `add_frauds`, a nonzero scenario tag
implies fraud label 1; the fraud label is 1 exactly when some scenario's
predicate applies (logical OR), and the stored tag is the number of the last
scenario pass that marked the transaction (3 beats 2 beats 1). -/
theorem fraud_tag_label_consistency (customers : List CustomerProfile)
    (terminals : List TerminalProfile) (p : FraudOracle)
    (txs : List Transaction) (i : ℕ) (t : Transaction)
    (h : txs.get? i = some t) :
    ∃ tf, (add_frauds customers terminals p txs).get? i = some tf ∧
      (tf.TX_FRAUD_SCEN ≠ 0 → tf.TX_FRAUD = 1) ∧
      ((hit1 t ∨ hit2 terminals p txs t ∨ selected3 customers p txs i) ↔
        tf.TX_FRAUD = 1) ∧
      (selected3 customers p txs i → tf.TX_FRAUD_SCEN = 3) ∧
      (¬selected3 customers p txs i → hit2 terminals p txs t →
        tf.TX_FRAUD_SCEN = 2) ∧
      (¬selected3 customers p txs i → ¬hit2 terminals p txs t → hit1 t →
        tf.TX_FRAUD_SCEN = 1) ∧
      (¬selected3 customers p txs i → ¬hit2 terminals p txs t → ¬hit1 t →
        tf.TX_FRAUD = 0 ∧ tf.TX_FRAUD_SCEN = 0) := by
  obtain ⟨tf, hget, -, h3, h2, h1, h0⟩ :=
    add_frauds_get? customers terminals p txs i t h
  refine ⟨tf, hget, ?_, ?_, fun hs => (h3 hs).2, fun hs hw => (h2 hs hw).2.1,
    fun hs hw h1t => (h1 hs hw h1t).2.1, fun hs hw h1t => ⟨(h0 hs hw h1t).1, (h0 hs hw h1t).2.1⟩⟩
  · intro htag
    by_cases hs : selected3 customers p txs i
    · exact (h3 hs).1
    by_cases hw : hit2 terminals p txs t
    · exact (h2 hs hw).1
    by_cases h1t : hit1 t
    · exact (h1 hs hw h1t).1
    · exact absurd (h0 hs hw h1t).2.1 htag
  · constructor
    · rintro (h1t | hw | hs)
      · by_cases hs : selected3 customers p txs i
        · exact (h3 hs).1
        by_cases hw : hit2 terminals p txs t
        · exact (h2 hs hw).1
        · exact (h1 hs hw h1t).1
      · by_cases hs : selected3 customers p txs i
        · exact (h3 hs).1
        · exact (h2 hs hw).1
      · exact (h3 hs).1
    · intro hfr
      by_contra hor
      push_neg at hor
      have := (h0 hor.2.2 hor.2.1 hor.1).1
      rw [this] at hfr
      exact absurd hfr (by decide)

/-- Witness for `fraud_tag_label_consistency` on a concrete table. -/
theorem fraud_tag_label_consistency_w :
    ∃ tf, (add_frauds wCust cex3Terminals wFP wTxs).get? 0 = some tf ∧
      (tf.TX_FRAUD_SCEN ≠ 0 → tf.TX_FRAUD = 1) ∧
      ((hit1 (mkTx5 0 10) ∨ hit2 cex3Terminals wFP wTxs (mkTx5 0 10) ∨
        selected3 wCust wFP wTxs 0) ↔ tf.TX_FRAUD = 1) ∧
      (selected3 wCust wFP wTxs 0 → tf.TX_FRAUD_SCEN = 3) ∧
      (¬selected3 wCust wFP wTxs 0 → hit2 cex3Terminals wFP wTxs (mkTx5 0 10) →
        tf.TX_FRAUD_SCEN = 2) ∧
      (¬selected3 wCust wFP wTxs 0 → ¬hit2 cex3Terminals wFP wTxs (mkTx5 0 10) →
        hit1 (mkTx5 0 10) → tf.TX_FRAUD_SCEN = 1) ∧
      (¬selected3 wCust wFP wTxs 0 → ¬hit2 cex3Terminals wFP wTxs (mkTx5 0 10) →
        ¬hit1 (mkTx5 0 10) → tf.TX_FRAUD = 0 ∧ tf.TX_FRAUD_SCEN = 0) :=
  fraud_tag_label_consistency wCust cex3Terminals wFP wTxs 0 (mkTx5 0 10) rfl

/-- C3 (amended): for each day `d` from 0 up to but excluding the maximum
day index, the pandas draw for day `d` requests exactly 2 terminals (and
returns exactly 2 under the sampler's contract), and after the scenario-2
pass every transaction with day index in `[d, d+28)` whose terminal is among
the two drawn for day `d` is marked fraudulent with scenario tag 2. -/
theorem scenario2_window_marks (terminals : List TerminalProfile)
    (p : FraudOracle) (txs : List Transaction) (d i : ℕ) (t : Transaction)
    (hsample : ∀ (s : ℕ) (pop : List ℕ) (n : ℕ), n ≤ pop.length →
      (p.pdSample s pop n).length = n)
    (hterm : 2 ≤ terminals.length)
    (hd : d < maxDays txs) (h : txs.get? i = some t)
    (hcond : d ≤ t.TX_TIME_DAYS ∧ t.TX_TIME_DAYS < d + 28 ∧
      t.TERMINAL_ID ∈ compTerminals terminals p d) :
    (compTerminals terminals p d).length = 2 ∧
    ∃ t2, (scenario2Pass terminals p txs).get? i = some t2 ∧
      t2.TX_FRAUD = 1 ∧ t2.TX_FRAUD_SCEN = 2 := by
  constructor
  · exact hsample d _ 2 (by simpa using hterm)
  · obtain ⟨t2, hget, hyes, -⟩ := loop2_get? terminals p (maxDays txs) 0 txs i t h
    refine ⟨t2, hget, ?_⟩
    have ht2 := hyes ⟨d, hd, by rw [Nat.zero_add]; exact hcond⟩
    rw [ht2]
    exact ⟨rfl, rfl⟩

/-- C3 (counterexample): the scenario-2 loop runs `for day in
range(TX_TIME_DAYS.max())`, excluding the maximum day index.  Here the only
transaction is on day 1 = the maximum day index, at a terminal among the two
drawn for day 1, inside the window `[1, 1+28)` — yet after the pass it is
unmarked, refuting the "inclusive" day range of the claim. -/
theorem scenario2_window_marks_cex :
    maxDays cex3Txs ≤ cex3Tx.TX_TIME_DAYS ∧
    cex3Tx.TX_TIME_DAYS < maxDays cex3Txs + 28 ∧
    cex3Tx.TERMINAL_ID ∈ compTerminals cex3Terminals cex3P (maxDays cex3Txs) ∧
    (compTerminals cex3Terminals cex3P (maxDays cex3Txs)).length = 2 ∧
    (scenario2Pass cex3Terminals cex3P cex3Txs).map Transaction.TX_FRAUD = [0] ∧
    (scenario2Pass cex3Terminals cex3P cex3Txs).map Transaction.TX_FRAUD_SCEN = [0] := by
  decide

/-- Witness for `scenario2_window_marks` on a concrete table where day 0 is
below the maximum day index and the day-0 transaction sits at a drawn
terminal. -/
theorem scenario2_window_marks_w :
    (compTerminals cex3Terminals cex3P 0).length = 2 ∧
    ∃ t2, (scenario2Pass cex3Terminals cex3P w3Txs).get? 0 = some t2 ∧
      t2.TX_FRAUD = 1 ∧ t2.TX_FRAUD_SCEN = 2 :=
  scenario2_window_marks cex3Terminals cex3P w3Txs 0 0 w3Tx
    (fun s pop n hn => by
      show ((if s = 1 then pop.reverse else pop).take n).length = n
      rw [List.length_take]
      split
      · rw [List.length_reverse]
        exact Nat.min_eq_left hn
      · exact Nat.min_eq_left hn)
    (by decide) (by decide) rfl (by decide)

/-- C4: on day `d` of the scenario-3 pass, the pandas draw requests 60
customers (returning exactly 60 under the sampler's contract); among the
rows with day index in `[d, d+14)` belonging to those customers, the
`random.sample` selection (seeded by `d`, without replacement) has size
one-third (floor) of the candidate set and draws only candidates; every
selected row has its amount multiplied by exactly 5 at that step and is
marked fraudulent with scenario tag 3 — a marking that persists to the end
of the pass. -/
theorem scenario3_selected_marks (customers : List CustomerProfile)
    (p : FraudOracle) (txs : List Transaction) (d i : ℕ) (t : Transaction)
    (hpy : ∀ (s : ℕ) (pop : List ℕ) (k : ℕ), k ≤ pop.length →
      (p.pySample s pop k).length = k ∧ ∀ x ∈ p.pySample s pop k, x ∈ pop)
    (hpd : ∀ (s : ℕ) (pop : List ℕ) (n : ℕ), n ≤ pop.length →
      (p.pdSample s pop n).length = n)
    (h60 : 60 ≤ customers.length)
    (h : txs.get? i = some t)
    (hsel : i ∈ scenario3Chosen customers p d txs) :
    (p.pdSample d (customers.map CustomerProfile.CUSTOMER_ID) 60).length = 60 ∧
    (scenario3Chosen customers p d txs).length =
      (candIdx (p.pdSample d (customers.map CustomerProfile.CUSTOMER_ID) 60)
        d 0 txs).length / 3 ∧
    (∀ j ∈ scenario3Chosen customers p d txs,
      j ∈ candIdx (p.pdSample d (customers.map CustomerProfile.CUSTOMER_ID) 60)
        d 0 txs) ∧
    (∃ t3, (scenario3Step customers p d txs).get? i = some t3 ∧
      t3.TX_AMOUNT = 5 * t.TX_AMOUNT ∧ t3.TX_FRAUD = 1 ∧
      t3.TX_FRAUD_SCEN = 3) ∧
    (d < maxDays txs →
      ∃ t4, (scenario3Pass customers p txs).get? i = some t4 ∧
        t4.TX_FRAUD = 1 ∧ t4.TX_FRAUD_SCEN = 3) := by
  have hc := hpy d
    (candIdx (p.pdSample d (customers.map CustomerProfile.CUSTOMER_ID) 60) d 0 txs)
    ((candIdx (p.pdSample d (customers.map CustomerProfile.CUSTOMER_ID) 60)
      d 0 txs).length / 3)
    (Nat.div_le_self _ _)
  refine ⟨hpd d _ 60 (by simpa using h60), hc.1, hc.2, ?_, ?_⟩
  · refine ⟨scenario3Mark t, ?_, ?_, rfl, rfl⟩
    · rw [scenario3Step_get?, h]
      show some (if i ∈ scenario3Chosen customers p d txs
        then scenario3Mark t else t) = some (scenario3Mark t)
      rw [if_pos hsel]
    · exact mul_comm t.TX_AMOUNT 5
  · intro hd
    obtain ⟨t4, hget, -, hyes, -⟩ := loop3_get? customers p (maxDays txs) 0 txs i t h
    exact ⟨t4, hget, hyes ⟨d, hd, by rw [Nat.zero_add]; exact hsel⟩⟩

/-- Witness for `scenario3_selected_marks` on a concrete table of four
transactions of a drawn customer, of which one (a third, rounded down) is
selected on day 0. -/
theorem scenario3_selected_marks_w :
    (wFP.pdSample 0 (wCust.map CustomerProfile.CUSTOMER_ID) 60).length = 60 ∧
    (scenario3Chosen wCust wFP 0 wTxs).length =
      (candIdx (wFP.pdSample 0 (wCust.map CustomerProfile.CUSTOMER_ID) 60)
        0 0 wTxs).length / 3 ∧
    (∀ j ∈ scenario3Chosen wCust wFP 0 wTxs,
      j ∈ candIdx (wFP.pdSample 0 (wCust.map CustomerProfile.CUSTOMER_ID) 60)
        0 0 wTxs) ∧
    (∃ t3, (scenario3Step wCust wFP 0 wTxs).get? 0 = some t3 ∧
      t3.TX_AMOUNT = 5 * (mkTx5 0 10).TX_AMOUNT ∧ t3.TX_FRAUD = 1 ∧
      t3.TX_FRAUD_SCEN = 3) ∧
    (0 < maxDays wTxs →
      ∃ t4, (scenario3Pass wCust wFP wTxs).get? 0 = some t4 ∧
        t4.TX_FRAUD = 1 ∧ t4.TX_FRAUD_SCEN = 3) :=
  scenario3_selected_marks wCust wFP wTxs 0 0 (mkTx5 0 10)
    (fun _ pop k hk =>
      ⟨by
        show (pop.take k).length = k
        rw [List.length_take]
        exact Nat.min_eq_left hk,
       fun x hx => List.take_subset _ _ hx⟩)
    (fun _ pop n hn => by
      show (pop.take n).length = n
      rw [List.length_take]
      exact Nat.min_eq_left hn)
    (by decide) rfl (by decide)

/-- C10: `add_frauds` adds and removes no transaction, leaves
`TX_DATETIME`, `CUSTOMER_ID`, `TERMINAL_ID`, `TX_TIME_SECONDS` and
`TX_TIME_DAYS` of every transaction unchanged, and leaves `TX_AMOUNT`
unchanged for every transaction not selected by the scenario-3 pass. -/
theorem add_frauds_frame (customers : List CustomerProfile)
    (terminals : List TerminalProfile) (p : FraudOracle)
    (txs : List Transaction) (i : ℕ) (t : Transaction)
    (h : txs.get? i = some t) :
    (add_frauds customers terminals p txs).length = txs.length ∧
    ∃ tf, (add_frauds customers terminals p txs).get? i = some tf ∧
      tf.TX_DATETIMEs = t.TX_DATETIMEs ∧ tf.CUSTOMER_ID = t.CUSTOMER_ID ∧
      tf.TERMINAL_ID = t.TERMINAL_ID ∧ tf.TX_TIME_SECONDS = t.TX_TIME_SECONDS ∧
      tf.TX_TIME_DAYS = t.TX_TIME_DAYS ∧
      (¬selected3 customers p txs i → tf.TX_AMOUNT = t.TX_AMOUNT) := by
  refine ⟨(add_frauds_forall₂ customers terminals p txs).length_eq, ?_⟩
  obtain ⟨tf, hget, hfr, -, h2, h1, h0⟩ :=
    add_frauds_get? customers terminals p txs i t h
  refine ⟨tf, hget, hfr.1, hfr.2.1, hfr.2.2.1, hfr.2.2.2.1, hfr.2.2.2.2, ?_⟩
  intro hs
  by_cases hw : hit2 terminals p txs t
  · exact (h2 hs hw).2.2
  by_cases h1t : hit1 t
  · exact (h1 hs hw h1t).2.2
  · exact (h0 hs hw h1t).2.2

/-- Witness for `add_frauds_frame` at a concrete table and row. -/
theorem add_frauds_frame_w :
    (add_frauds wCust cex3Terminals wFP wTxs).length = wTxs.length ∧
    ∃ tf, (add_frauds wCust cex3Terminals wFP wTxs).get? 3 = some tf ∧
      tf.TX_DATETIMEs = (mkTx5 1 40).TX_DATETIMEs ∧
      tf.CUSTOMER_ID = (mkTx5 1 40).CUSTOMER_ID ∧
      tf.TERMINAL_ID = (mkTx5 1 40).TERMINAL_ID ∧
      tf.TX_TIME_SECONDS = (mkTx5 1 40).TX_TIME_SECONDS ∧
      tf.TX_TIME_DAYS = (mkTx5 1 40).TX_TIME_DAYS ∧
      (¬selected3 wCust wFP wTxs 3 → tf.TX_AMOUNT = (mkTx5 1 40).TX_AMOUNT) :=
  add_frauds_frame wCust cex3Terminals wFP wTxs 3 (mkTx5 1 40) rfl
